import Mathlib

/-!
Verification of `youtube_transcript_summarizer.py` (ahmedjama/ytranscribe).

The program is a linear command-line script: resolve a video title, fetch or
reuse a cached transcript file, load an optional prompt file, send one HTTP
request to a local inference endpoint, and write the summary to a file.

Strings are modelled as `List Char`.  The filesystem is an association list
from paths to file contents; external collaborators (the metadata extractor,
the transcript service, and the HTTP inference endpoint) are oracle functions
bundled in an `Env` record.  `mainRun` is a shallow embedding of `main`
(lines 63-108 of the source), returning the final filesystem, the printed
lines, the exit code, and bookkeeping about which external services ran.
-/

namespace YTS

abbrev Str := List Char

/-- Characters removed by `re.sub` in `sanitize_filename` (source line 22):
backslash, slash, star, question mark, colon, double quote, angle brackets,
and the vertical bar. -/
def isBanned (c : Char) : Bool :=
  c = '\\' || c = '/' || c = '*' || c = '?' || c = ':' || c = '\"' ||
    c = '<' || c = '>' || c = '|'

/-- Whitespace removed by the Python `str.strip()` method (the ASCII
whitespace characters: space, tab, newline, carriage return, vertical tab,
form feed). -/
def isPySpace (c : Char) : Bool :=
  c = ' ' || c = '\t' || c = '\n' || c = '\r' || c = '\x0b' || c = '\x0c'

/-- The Python `str.strip()` method: drop whitespace from both ends. -/
def pyStrip (s : Str) : Str :=
  ((s.dropWhile isPySpace).reverse.dropWhile isPySpace).reverse

/-- The character map performed by `.replace(" ", "_")` on a string: a
single-character pattern replacement is a character-wise map. -/
def spaceToUnderscore (c : Char) : Char := if c = ' ' then '_' else c

/-- Source lines 21-22: drop the banned characters with re.sub, strip the
result, then replace each space with an underscore. -/
def sanitize_filename (name : Str) : Str :=
  (pyStrip (name.filter (fun c => !isBanned c))).map spaceToUnderscore

/-- Stated from the words of the spec, for comparison with the source
function: remove the banned characters and replace every space by an
underscore, with no trimming step. -/
def specRemoveThenReplace (name : Str) : Str :=
  (name.filter (fun c => !isBanned c)).map spaceToUnderscore

/-- A string whose first character, if any, is not Python whitespace. -/
def noLead (s : Str) : Prop :=
  match s with
  | [] => True
  | c :: _ => isPySpace c = false

/-! Data model: filesystem, external collaborators, and program constants. -/

/-- One timed unit of spoken text returned by the transcript service; only
the `text` attribute is used by the program. -/
structure Snippet where
  text : Str
deriving DecidableEq

/-- Outcome of calling `.json()` on the HTTP response and reading its
`response` field: either the body is not valid JSON (`.json()` raises, with
the given exception message), or it parses and the `response` field is
present or absent. -/
inductive JsonBody where
  | invalid (msg : Str)
  | valid (response_field : Option Str)
deriving DecidableEq

/-- The HTTP response delivered by `requests.post`. -/
structure HttpResponse where
  status_code : Nat
  text : Str
  body : JsonBody
deriving DecidableEq

/-- The external collaborators of one run: `yt_dlp` title extraction
(`none` = the call raises; `some info` = success, where `info` is the
optional `title` field of the returned dictionary), the transcript service
(`Except.error` = the fetch raises with that message), and the HTTP
inference endpoint, as a function of url, model and prompt.  `titleErr` and
`promptErr` are the rendered messages of the exceptions caught at lines
29-30 and 44-46 of the source. -/
structure Env where
  extract_info : Str → Option (Option Str)
  titleErr : Str
  promptErr : Str
  fetch : Str → Except Str (List Snippet)
  post : Str → Str → Str → HttpResponse

/-- The filesystem: an association list from paths to file contents.  A
write prepends, so the newest entry for a path wins. -/
abbrev FS := List (Str × Str)

def fsLookup : FS → Str → Option Str
  | [], _ => none
  | (k, v) :: rest, p => if k = p then some v else fsLookup rest p

def fsInsert (fs : FS) (k v : Str) : FS := (k, v) :: fs

/-- Result of one run of `main`: final filesystem, lines printed, process
exit code, whether the transcript service and the inference endpoint were
invoked, the arguments of the inference call (url, model, full prompt) when
one happened, the exception caught by the top-level handler when one was
raised, and the paths opened for writing during the run. -/
structure RunResult where
  fs : FS
  printed : List Str
  exitCode : Nat
  fetchCalled : Bool
  postCalled : Bool
  postArgs : Option (Str × Str × Str)
  err : Option Str
  written : List Str

/-! Program constants, from source lines 8-19. -/

def DEFAULT_OLLAMA_MODEL : Str := ("gemma3").toList

def DEFAULT_PROMPT : Str :=
  ("You are an assistant summarizing a YouTube transcript. Please provide a concise summary of the video and list 5–7 key takeaways as bullet points. Here is the transcript:").toList

def OLLAMA_URL : Str := ("http://localhost:11434/api/generate").toList

def TRANSCRIPTS_DIR : Str := ("transcripts").toList

def SUMMARIES_DIR : Str := ("summaries").toList

def UNKNOWN_TITLE : Str := ("unknown_title").toList

def NL2 : Str := ("\n\n").toList

def OLLAMA_FAIL : Str := ("Ollama request failed: ").toList

def ERR_PREFIX : Str := ("❌ Error: ").toList

/-! Printed progress messages, from the print statements of the source. -/

def usageMsg : Str :=
  ("Usage: python youtube_transcript_summarizer.py <video_id> [prompt_file] [ollama_model]").toList

def fetchingTitleMsg (url : Str) : Str := ("🔍 Fetching title for video: ").toList ++ url

def titleWarnMsg (e : Str) : Str := ("⚠️ Failed to fetch video title: ").toList ++ e

def videoTitleMsg (t : Str) : Str :=
  ("🎬 Video Title: ").toList ++ t.map (fun c => if c = '_' then ' ' else c)

def foundMsg (p : Str) : Str := ("📁 Found existing transcript: ").toList ++ p

def fetchingTrMsg : Str := ("⏳ Fetching transcript...").toList

def retrievedMsg (n : Nat) : Str :=
  ("✅ Retrieved ").toList ++ (Nat.repr n).toList ++ (" transcript snippets.").toList

def savedTrMsg (p : Str) : Str := ("📄 Transcript saved as ").toList ++ p

def loadingPromptMsg : Str := ("\n📥 Loading prompt...").toList

def promptWarnMsg (e : Str) : Str := ("⚠️ Failed to load prompt file: ").toList ++ e

def promptDefaultMsg : Str := ("Using default prompt instead.").toList

def sendingMsg (m : Str) : Str :=
  ("\n🧠 Sending transcript to Ollama (").toList ++ m ++ (") for summarization...").toList

def summaryHdr : Str := ("\n📝 Summary:\n").toList

def savedSumMsg (p : Str) : Str := ("\n✅ Summary saved as ").toList ++ p

def errLine (e : Str) : Str := ERR_PREFIX ++ e

/-! The program functions, translated line by line from the source. -/

/-- Source line 72: the canonical watch URL built from the identifier. -/
def videoUrl (vid : Str) : Str := ("https://www.youtube.com/watch?v=").toList ++ vid

/-- Source lines 24-31: `get_video_title`.  Returns the title together with
the warning lines it prints.  On an extraction failure it prints a warning
and returns the literal fallback; on success it sanitizes the title field
of the info dictionary, defaulting to the fallback string when the field is
absent. -/
def get_video_title (env : Env) (video_url : Str) : Str × List Str :=
  match env.extract_info video_url with
  | some info => (sanitize_filename (info.getD UNKNOWN_TITLE), [])
  | none => (UNKNOWN_TITLE, [titleWarnMsg env.titleErr])

/-- Source lines 33-38: the file content written by `save_transcript`: for
each snippet, its stripped text followed by one space. -/
def transcriptContent (sn : List Snippet) : Str :=
  (sn.map (fun s => pyStrip s.text ++ [' '])).flatten

/-- Stated from the words of the spec, for comparison with the source: the
trimmed snippet texts joined with single spaces and nothing else. -/
def specSpaceJoined (sn : List Snippet) : Str :=
  List.intercalate ([' ']) (sn.map (fun s => pyStrip s.text))

/-- Source lines 40-47: `load_prompt`.  Reading the file maps to a
filesystem lookup; a missing file is the exception path, which prints two
warning lines and falls back to the default prompt. -/
def load_prompt (env : Env) (fs : FS) (prompt_file : Str) : Str × List Str :=
  match fsLookup fs prompt_file with
  | some content => (pyStrip content, [])
  | none => (DEFAULT_PROMPT, [promptWarnMsg env.promptErr, promptDefaultMsg])

/-- Source line 94: `load_prompt(prompt_file) if prompt_file else
DEFAULT_PROMPT`.  A `None` argument and an empty-string argument are both
falsy in Python and select the default prompt without touching the file. -/
def computePrompt (env : Env) (fs : FS) (pf : Option Str) : Str × List Str :=
  match pf with
  | none => (DEFAULT_PROMPT, [])
  | some p => if p = [] then (DEFAULT_PROMPT, []) else load_prompt env fs p

/-- Source lines 49-61: `summarize_with_ollama`.  Concatenates prompt and
transcript, posts once, and on status 200 returns the stripped `response`
field (empty string when absent); on any other status it raises a
`RuntimeError` whose message is the fail text followed by the raw body. -/
def summarize_with_ollama (env : Env) (prompt transcript_text model : Str) :
    Except Str Str :=
  let full_prompt := prompt ++ NL2 ++ transcript_text
  let response := env.post OLLAMA_URL model full_prompt
  if response.status_code = 200 then
    match response.body with
    | JsonBody.invalid msg => Except.error msg
    | JsonBody.valid fields => Except.ok (pyStrip (fields.getD []))
  else
    Except.error (OLLAMA_FAIL ++ response.text)

/-! Source lines 63-108: `main`, split into the argument readers, the
transcript step, and the tail of the run after the transcript exists. -/

def vidOf (argv : List Str) : Str := argv.getD 1 []

def pfOf (argv : List Str) : Option Str :=
  if 3 ≤ argv.length then some (argv.getD 2 []) else none

def modelOf (argv : List Str) : Str :=
  if 4 ≤ argv.length then argv.getD 3 [] else DEFAULT_OLLAMA_MODEL

def titleOf (env : Env) (vid : Str) : Str := (get_video_title env (videoUrl vid)).1

/-- Source line 79: `os.path.join(TRANSCRIPTS_DIR, f"..._transcript.txt")`. -/
def transcriptPath (t : Str) : Str :=
  TRANSCRIPTS_DIR ++ ("/").toList ++ t ++ ("_transcript.txt").toList

/-- Source line 101: `os.path.join(SUMMARIES_DIR, f"..._summary_....txt")`. -/
def summaryPath (t m : Str) : Str :=
  SUMMARIES_DIR ++ ("/").toList ++ t ++ ("_summary_").toList ++ m ++ (".txt").toList

def transcriptPathOf (env : Env) (argv : List Str) : Str :=
  transcriptPath (titleOf env (vidOf argv))

def summaryPathOf (env : Env) (argv : List Str) : Str :=
  summaryPath (titleOf env (vidOf argv)) (modelOf argv)

/-- Source lines 90-105: the tail of `main` once the transcript file is in
place: read it back, choose the prompt, call the summarizer, and either
write the summary file or fall into the top-level handler. -/
def afterTranscript (env : Env) (pf : Option Str) (model title : Str)
    (fs1 : FS) (fc : Bool) (pr : List Str) (w : List Str) : RunResult :=
  let tp := transcriptPath title
  let transcript_text := (fsLookup fs1 tp).getD []
  let cp := computePrompt env fs1 pf
  let full_prompt := cp.1 ++ NL2 ++ transcript_text
  let pr2 := pr ++ [loadingPromptMsg] ++ cp.2 ++ [sendingMsg model]
  match summarize_with_ollama env cp.1 transcript_text model with
  | Except.error e =>
      { fs := fs1, printed := pr2 ++ [errLine e], exitCode := 0,
        fetchCalled := fc, postCalled := true,
        postArgs := some (OLLAMA_URL, model, full_prompt),
        err := some e, written := w }
  | Except.ok summary =>
      let sp := summaryPath title model
      { fs := fsInsert fs1 sp summary,
        printed := pr2 ++ [summaryHdr, summary, savedSumMsg sp], exitCode := 0,
        fetchCalled := fc, postCalled := true,
        postArgs := some (OLLAMA_URL, model, full_prompt),
        err := none, written := w ++ [sp] }

/-- Source lines 74-91: title resolution and the transcript cache check; on
a miss, fetch and save, and a fetch failure falls into the top-level
handler. -/
def mainBody (env : Env) (vid : Str) (pf : Option Str) (model : Str)
    (fs0 : FS) : RunResult :=
  let title := titleOf env vid
  let pr0 := [fetchingTitleMsg (videoUrl vid)] ++
    (get_video_title env (videoUrl vid)).2 ++ [videoTitleMsg title]
  let tp := transcriptPath title
  match fsLookup fs0 tp with
  | some _ =>
      afterTranscript env pf model title fs0 false (pr0 ++ [foundMsg tp]) []
  | none =>
      match env.fetch vid with
      | Except.error e =>
          { fs := fs0, printed := pr0 ++ [fetchingTrMsg, errLine e],
            exitCode := 0, fetchCalled := true, postCalled := false,
            postArgs := none, err := some e, written := [] }
      | Except.ok sn =>
          afterTranscript env pf model title
            (fsInsert fs0 tp (transcriptContent sn)) true
            (pr0 ++ [fetchingTrMsg, retrievedMsg sn.length, savedTrMsg tp])
            [tp]

/-- Source lines 63-108: `main`.  With fewer than two argv entries the
program prints usage and exits with status 1; otherwise it runs the body,
whose exceptions are all caught by the single handler, so the exit code is
0 on every other path. -/
def mainRun (env : Env) (argv : List Str) (fs0 : FS) : RunResult :=
  if argv.length < 2 then
    { fs := fs0, printed := [usageMsg], exitCode := 1, fetchCalled := false,
      postCalled := false, postArgs := none, err := none, written := [] }
  else mainBody env (vidOf argv) (pfOf argv) (modelOf argv) fs0

/-! Concrete environments and inputs used to evaluate the theorems on
closed instances. -/

/-- A two-entry argv: program name and video identifier only. -/
def argvW : List Str := [("prog").toList, ("vid").toList]

/-- A healthy environment: the title resolves to T, the transcript service
returns the two snippets a and b, and the endpoint answers 200 with
response field s. -/
def envAB : Env :=
  { extract_info := fun _ => some (some (("T").toList)),
    titleErr := [], promptErr := [],
    fetch := fun _ => Except.ok [{ text := ("a").toList }, { text := ("b").toList }],
    post := fun _ _ _ =>
      { status_code := 200, text := ("ok").toList,
        body := JsonBody.valid (some (("s").toList)) } }

/-- A 500 response with body boom. -/
def respBoom : HttpResponse :=
  { status_code := 500, text := ("boom").toList, body := JsonBody.valid none }

/-- Same collaborators as `envAB` but the endpoint always fails with
`respBoom`. -/
def envBoom : Env :=
  { extract_info := fun _ => some (some (("T").toList)),
    titleErr := [], promptErr := [],
    fetch := fun _ => Except.ok [{ text := ("a").toList }],
    post := fun _ _ _ => respBoom }

/-- A 200 response whose response field is the string hello. -/
def respHello : HttpResponse :=
  { status_code := 200, text := ("raw").toList,
    body := JsonBody.valid (some (("hello").toList)) }

/-- Same collaborators as `envAB` but the endpoint answers `respHello`. -/
def envHello : Env :=
  { extract_info := fun _ => some (some (("T").toList)),
    titleErr := [], promptErr := [],
    fetch := fun _ => Except.ok [{ text := ("a").toList }],
    post := fun _ _ _ => respHello }

/-- A 200 response whose JSON body has no response field. -/
def respNoField : HttpResponse :=
  { status_code := 200, text := ("raw").toList, body := JsonBody.valid none }

/-- Same collaborators as `envAB` but the endpoint answers `respNoField`. -/
def envNoField : Env :=
  { extract_info := fun _ => some (some (("T").toList)),
    titleErr := [], promptErr := [],
    fetch := fun _ => Except.ok [{ text := ("a").toList }],
    post := fun _ _ _ => respNoField }

/-- An environment whose title extraction raises. -/
def envTitleFail : Env :=
  { extract_info := fun _ => none,
    titleErr := ("network down").toList, promptErr := [],
    fetch := fun _ => Except.ok [],
    post := fun _ _ _ => respNoField }

/-- A filesystem holding a cached transcript for the title T. -/
def fsCached : FS := [(transcriptPath (("T").toList), ("cached").toList)]

/-! Lemmas about stripping and sanitization, and claims C3 and C10. -/

lemma noLead_dropWhile (l : Str) : noLead (l.dropWhile isPySpace) := by
  induction l with
  | nil => trivial
  | cons c t ih =>
      rw [List.dropWhile_cons]
      cases hc : isPySpace c with
      | true => simp [hc]; exact ih
      | false => simp [hc, noLead]

lemma dropWhile_eq_self_of_noLead (l : Str) (h : noLead l) :
    l.dropWhile isPySpace = l := by
  cases l with
  | nil => rfl
  | cons c t =>
      have hc : isPySpace c = false := h
      rw [List.dropWhile_cons, hc]
      simp

lemma noLead_reverse_dropWhile (m : Str) (h : noLead m.reverse) :
    noLead (m.dropWhile isPySpace).reverse := by
  induction m with
  | nil => trivial
  | cons c t ih =>
      rw [List.dropWhile_cons]
      cases hc : isPySpace c with
      | false => simpa [hc] using h
      | true =>
          simp only [hc, if_true]
          apply ih
          cases ht : t.reverse with
          | nil => trivial
          | cons d r =>
              rw [List.reverse_cons, ht] at h
              exact h

lemma noLead_pyStrip (l : Str) : noLead (pyStrip l) := by
  unfold pyStrip
  apply noLead_reverse_dropWhile
  rw [List.reverse_reverse]
  exact noLead_dropWhile l

lemma noLead_reverse_pyStrip (l : Str) : noLead (pyStrip l).reverse := by
  unfold pyStrip
  rw [List.reverse_reverse]
  exact noLead_dropWhile _

lemma pyStrip_eq_self (l : Str) (h1 : noLead l) (h2 : noLead l.reverse) :
    pyStrip l = l := by
  unfold pyStrip
  rw [dropWhile_eq_self_of_noLead l h1, dropWhile_eq_self_of_noLead _ h2,
    List.reverse_reverse]

lemma spaceToUnderscore_of_nonspace (c : Char) (h : isPySpace c = false) :
    spaceToUnderscore c = c := by
  unfold spaceToUnderscore
  rw [if_neg]
  intro hc
  subst hc
  exact absurd h (by decide)

lemma noLead_map (l : Str) (h : noLead l) :
    noLead (l.map spaceToUnderscore) := by
  cases l with
  | nil => trivial
  | cons c t =>
      have hc : isPySpace c = false := h
      show isPySpace (spaceToUnderscore c) = false
      rw [spaceToUnderscore_of_nonspace c hc]
      exact hc

lemma mem_of_mem_dropWhile (l : Str) (c : Char)
    (h : c ∈ l.dropWhile isPySpace) : c ∈ l := by
  induction l with
  | nil => simp at h
  | cons d t ih =>
      rw [List.dropWhile_cons] at h
      cases hd : isPySpace d with
      | true =>
          rw [hd] at h
          simp at h
          exact List.mem_cons_of_mem d (ih h)
      | false =>
          rw [hd] at h
          exact h

lemma mem_of_mem_pyStrip (l : Str) (c : Char) (h : c ∈ pyStrip l) : c ∈ l := by
  unfold pyStrip at h
  rw [List.mem_reverse] at h
  have h2 := mem_of_mem_dropWhile _ _ h
  rw [List.mem_reverse] at h2
  exact mem_of_mem_dropWhile _ _ h2

lemma spaceToUnderscore_ne_space (c : Char) : spaceToUnderscore c ≠ ' ' := by
  unfold spaceToUnderscore
  by_cases hc : c = ' '
  · rw [if_pos hc]; decide
  · rw [if_neg hc]; exact hc

lemma spaceToUnderscore_idem (c : Char) :
    spaceToUnderscore (spaceToUnderscore c) = spaceToUnderscore c := by
  unfold spaceToUnderscore
  by_cases hc : c = ' '
  · rw [if_pos hc]; decide
  · rw [if_neg hc, if_neg hc]

lemma map_spaceToUnderscore_idem (l : Str) :
    (l.map spaceToUnderscore).map spaceToUnderscore = l.map spaceToUnderscore := by
  induction l with
  | nil => rfl
  | cons c t ih => simp [ih, spaceToUnderscore_idem]

lemma not_banned_spaceToUnderscore (c : Char) (h : isBanned c = false) :
    isBanned (spaceToUnderscore c) = false := by
  unfold spaceToUnderscore
  by_cases hc : c = ' '
  · rw [if_pos hc]; decide
  · rw [if_neg hc]; exact h

lemma mem_sanitize_not_banned (s : Str) (c : Char)
    (h : c ∈ sanitize_filename s) : isBanned c = false ∧ c ≠ ' ' := by
  unfold sanitize_filename at h
  rw [List.mem_map] at h
  obtain ⟨b, hb, rfl⟩ := h
  have hbu : b ∈ s.filter (fun c => !isBanned c) := mem_of_mem_pyStrip _ _ hb
  rw [List.mem_filter] at hbu
  have hbnb : isBanned b = false := by
    have h2 := hbu.2
    simp at h2
    exact h2
  exact ⟨not_banned_spaceToUnderscore b hbnb, spaceToUnderscore_ne_space b⟩

/-- Claim C3 (amended): sanitization removes every occurrence of the
characters backslash, slash, star, question mark, colon, double quote,
angle brackets and vertical bar, trims leading and trailing whitespace, and
replaces every remaining space with an underscore; the returned string
contains none of those characters and no spaces. -/
theorem c3_sanitize_output_clean (s : Str) :
    (sanitize_filename s).all (fun c => !isBanned c && !(c = ' ' : Bool)) = true := by
  rw [List.all_eq_true]
  intro c hc
  obtain ⟨h1, h2⟩ := mem_sanitize_not_banned s c hc
  simp [h1, h2]

/-- Claim C3 counterexample: the claim as stated describes sanitization as
removing the banned characters and replacing every space with an underscore;
but the source also calls `.strip()`, so a leading space is deleted rather
than replaced with an underscore.  On the input consisting of a space
followed by the letter a, the source returns just the letter a, while the
transformation stated by the claim returns an underscore followed by a. -/
theorem c3_cex :
    sanitize_filename (" a").toList ≠ specRemoveThenReplace (" a").toList ∧
    sanitize_filename (" a").toList = ("a").toList ∧
    specRemoveThenReplace (" a").toList = ("_a").toList := by
  refine ⟨by decide, by decide, by decide⟩

/-- Claim C10: the sanitization function is idempotent. -/
theorem c10_sanitize_idempotent (s : Str) :
    sanitize_filename (sanitize_filename s) = sanitize_filename s := by
  unfold sanitize_filename
  have hfilter :
      (((pyStrip (s.filter (fun c => !isBanned c))).map spaceToUnderscore).filter
        (fun c => !isBanned c)) =
      (pyStrip (s.filter (fun c => !isBanned c))).map spaceToUnderscore := by
    rw [List.filter_eq_self]
    intro a ha
    rw [List.mem_map] at ha
    obtain ⟨b, hb, rfl⟩ := ha
    have hbu := mem_of_mem_pyStrip _ _ hb
    rw [List.mem_filter] at hbu
    have hbnb : isBanned b = false := by simpa using hbu.2
    simp [not_banned_spaceToUnderscore b hbnb]
  rw [hfilter]
  rw [pyStrip_eq_self _
    (noLead_map _ (noLead_pyStrip _))
    (by
      rw [← List.map_reverse]
      exact noLead_map _ (noLead_reverse_pyStrip _))]
  exact map_spaceToUnderscore_idem _

/-! Helper lemmas about the filesystem and the two cache paths. -/

lemma fsLookup_insert (fs : FS) (k v p : Str) :
    fsLookup (fsInsert fs k v) p = if k = p then some v else fsLookup fs p := rfl

lemma fsLookup_insert_insert_same (fs : FS) (k v p : Str) :
    fsLookup (fsInsert (fsInsert fs k v) k v) p = fsLookup (fsInsert fs k v) p := by
  by_cases h : k = p <;> simp [fsLookup_insert, h]

lemma transcriptPath_head (t : Str) : (transcriptPath t).head? = some 't' := rfl

lemma summaryPath_head (t m : Str) : (summaryPath t m).head? = some 's' := rfl

lemma transcriptPath_ne_summaryPath (t t' m : Str) :
    transcriptPath t ≠ summaryPath t' m := by
  intro h
  have h2 := congrArg List.head? h
  rw [transcriptPath_head, summaryPath_head] at h2
  exact absurd h2 (by decide)

lemma computePrompt_fsInsert_ne (env : Env) (fs : FS) (k v : Str)
    (pf : Option Str) (h : pf ≠ some k) :
    computePrompt env (fsInsert fs k v) pf = computePrompt env fs pf := by
  cases pf with
  | none => rfl
  | some p =>
      have hp : p ≠ k := fun he => h (by rw [he])
      by_cases hp0 : p = []
      · simp only [computePrompt, if_pos hp0]
      · simp only [computePrompt, if_neg hp0]
        unfold load_prompt
        rw [fsLookup_insert, if_neg (Ne.symm hp)]

/-! Characterizations of the summarizer and of the run tail, by case on the
oracle response. -/

lemma summarize_non200 (env : Env) (prompt tt model : Str) (resp : HttpResponse)
    (hpost : env.post = fun _ _ _ => resp) (hst : resp.status_code ≠ 200) :
    summarize_with_ollama env prompt tt model =
      Except.error (OLLAMA_FAIL ++ resp.text) := by
  simp only [summarize_with_ollama, hpost]
  rw [if_neg hst]

lemma summarize_200 (env : Env) (prompt tt model : Str) (resp : HttpResponse)
    (rf : Option Str) (hpost : env.post = fun _ _ _ => resp)
    (hst : resp.status_code = 200) (hb : resp.body = JsonBody.valid rf) :
    summarize_with_ollama env prompt tt model =
      Except.ok (pyStrip (rf.getD [])) := by
  simp only [summarize_with_ollama, hpost]
  rw [if_pos hst, hb]

lemma afterTranscript_of_error (env : Env) (pf : Option Str)
    (model title : Str) (fs1 : FS) (fc : Bool) (pr w : List Str) (e : Str)
    (hs : summarize_with_ollama env (computePrompt env fs1 pf).1
      ((fsLookup fs1 (transcriptPath title)).getD []) model = Except.error e) :
    afterTranscript env pf model title fs1 fc pr w =
      { fs := fs1,
        printed := pr ++ [loadingPromptMsg] ++ (computePrompt env fs1 pf).2 ++
          [sendingMsg model] ++ [errLine e],
        exitCode := 0, fetchCalled := fc, postCalled := true,
        postArgs := some (OLLAMA_URL, model, (computePrompt env fs1 pf).1 ++
          NL2 ++ (fsLookup fs1 (transcriptPath title)).getD []),
        err := some e, written := w } := by
  simp only [afterTranscript]
  rw [hs]

lemma afterTranscript_of_ok (env : Env) (pf : Option Str)
    (model title : Str) (fs1 : FS) (fc : Bool) (pr w : List Str) (s : Str)
    (hs : summarize_with_ollama env (computePrompt env fs1 pf).1
      ((fsLookup fs1 (transcriptPath title)).getD []) model = Except.ok s) :
    afterTranscript env pf model title fs1 fc pr w =
      { fs := fsInsert fs1 (summaryPath title model) s,
        printed := pr ++ [loadingPromptMsg] ++ (computePrompt env fs1 pf).2 ++
          [sendingMsg model] ++ [summaryHdr, s, savedSumMsg (summaryPath title model)],
        exitCode := 0, fetchCalled := fc, postCalled := true,
        postArgs := some (OLLAMA_URL, model, (computePrompt env fs1 pf).1 ++
          NL2 ++ (fsLookup fs1 (transcriptPath title)).getD []),
        err := none, written := w ++ [summaryPath title model] } := by
  simp only [afterTranscript]
  rw [hs]

/-! Reduction lemmas for `mainRun`, by case on the transcript cache check
and on the transcript fetch. -/

lemma mainRun_hit (env : Env) (argv : List Str) (fs0 : FS) (c : Str)
    (hlen : 2 ≤ argv.length)
    (hlo : fsLookup fs0 (transcriptPathOf env argv) = some c) :
    ∃ pr, mainRun env argv fs0 =
      afterTranscript env (pfOf argv) (modelOf argv)
        (titleOf env (vidOf argv)) fs0 false pr [] := by
  refine ⟨[fetchingTitleMsg (videoUrl (vidOf argv))] ++
    (get_video_title env (videoUrl (vidOf argv))).2 ++
    [videoTitleMsg (titleOf env (vidOf argv))] ++
    [foundMsg (transcriptPath (titleOf env (vidOf argv)))], ?_⟩
  unfold transcriptPathOf at hlo
  unfold mainRun
  rw [if_neg (Nat.not_lt.mpr hlen)]
  simp only [mainBody]
  rw [hlo]

lemma mainRun_miss (env : Env) (argv : List Str) (fs0 : FS)
    (sn : List Snippet) (hlen : 2 ≤ argv.length)
    (hlo : fsLookup fs0 (transcriptPathOf env argv) = none)
    (hf : env.fetch (vidOf argv) = Except.ok sn) :
    ∃ pr, mainRun env argv fs0 =
      afterTranscript env (pfOf argv) (modelOf argv)
        (titleOf env (vidOf argv))
        (fsInsert fs0 (transcriptPathOf env argv) (transcriptContent sn))
        true pr [transcriptPathOf env argv] := by
  refine ⟨[fetchingTitleMsg (videoUrl (vidOf argv))] ++
    (get_video_title env (videoUrl (vidOf argv))).2 ++
    [videoTitleMsg (titleOf env (vidOf argv))] ++
    [fetchingTrMsg, retrievedMsg sn.length,
      savedTrMsg (transcriptPath (titleOf env (vidOf argv)))], ?_⟩
  unfold transcriptPathOf at hlo ⊢
  unfold mainRun
  rw [if_neg (Nat.not_lt.mpr hlen)]
  simp only [mainBody]
  rw [hlo, hf]

lemma mainRun_fetchErr (env : Env) (argv : List Str) (fs0 : FS) (e : Str)
    (hlen : 2 ≤ argv.length)
    (hlo : fsLookup fs0 (transcriptPathOf env argv) = none)
    (hf : env.fetch (vidOf argv) = Except.error e) :
    (mainRun env argv fs0).err = some e ∧
    (mainRun env argv fs0).postCalled = false ∧
    (mainRun env argv fs0).fs = fs0 := by
  unfold transcriptPathOf at hlo
  unfold mainRun
  rw [if_neg (Nat.not_lt.mpr hlen)]
  simp only [mainBody]
  rw [hlo, hf]
  exact ⟨rfl, rfl, rfl⟩

/-- Every run that invoked the inference endpoint went through the run tail
with the transcript file in place: the filesystem it passed on differs from
the initial one at most at the transcript path. -/
lemma mainRun_post (env : Env) (argv : List Str) (fs0 : FS)
    (hlen : 2 ≤ argv.length)
    (hpc : (mainRun env argv fs0).postCalled = true) :
    ∃ fs1 fc pr w,
      mainRun env argv fs0 =
        afterTranscript env (pfOf argv) (modelOf argv)
          (titleOf env (vidOf argv)) fs1 fc pr w ∧
      fsLookup fs1 (transcriptPathOf env argv) ≠ none ∧
      (∀ p, p ≠ transcriptPathOf env argv → fsLookup fs1 p = fsLookup fs0 p) := by
  cases hlo : fsLookup fs0 (transcriptPathOf env argv) with
  | some c =>
      obtain ⟨pr, h⟩ := mainRun_hit env argv fs0 c hlen hlo
      exact ⟨fs0, false, pr, [], h, by rw [hlo]; simp, fun p _ => rfl⟩
  | none =>
      cases hf : env.fetch (vidOf argv) with
      | error e =>
          obtain ⟨he, hp, _⟩ := mainRun_fetchErr env argv fs0 e hlen hlo hf
          rw [hpc] at hp
          exact absurd hp (by simp)
      | ok sn =>
          obtain ⟨pr, h⟩ := mainRun_miss env argv fs0 sn hlen hlo hf
          refine ⟨fsInsert fs0 (transcriptPathOf env argv) (transcriptContent sn),
            true, pr, [transcriptPathOf env argv], h, ?_, ?_⟩
          · rw [fsLookup_insert, if_pos rfl]; simp
          · intro p hp
            rw [fsLookup_insert, if_neg (Ne.symm hp)]

/-! Projections of the run tail that do not depend on the endpoint
response. -/

lemma afterTranscript_fetchCalled (env : Env) (pf : Option Str)
    (model title : Str) (fs1 : FS) (fc : Bool) (pr w : List Str) :
    (afterTranscript env pf model title fs1 fc pr w).fetchCalled = fc := by
  simp only [afterTranscript]
  cases hs : summarize_with_ollama env (computePrompt env fs1 pf).1
      ((fsLookup fs1 (transcriptPath title)).getD []) model <;> rfl

lemma afterTranscript_postArgs (env : Env) (pf : Option Str)
    (model title : Str) (fs1 : FS) (fc : Bool) (pr w : List Str) :
    (afterTranscript env pf model title fs1 fc pr w).postArgs =
      some (OLLAMA_URL, model, (computePrompt env fs1 pf).1 ++ NL2 ++
        (fsLookup fs1 (transcriptPath title)).getD []) := by
  simp only [afterTranscript]
  cases hs : summarize_with_ollama env (computePrompt env fs1 pf).1
      ((fsLookup fs1 (transcriptPath title)).getD []) model <;> rfl

/-- Claim C4: when a transcript file already exists at the deterministic
transcript path for the sanitized title, the transcript-retrieval service
is never invoked, and the content of the existing file is what gets used as
the transcript in the inference request, regardless of its age or
content. -/
theorem c4_cache_hit_skips_fetch (env : Env) (argv : List Str) (fs : FS)
    (c : Str) (hlen : 2 ≤ argv.length)
    (hlo : fsLookup fs (transcriptPathOf env argv) = some c) :
    (mainRun env argv fs).fetchCalled = false ∧
    ∃ pp, (mainRun env argv fs).postArgs =
      some (OLLAMA_URL, modelOf argv, pp ++ NL2 ++ c) := by
  obtain ⟨pr, h⟩ := mainRun_hit env argv fs c hlen hlo
  rw [h]
  refine ⟨afterTranscript_fetchCalled _ _ _ _ _ _ _ _,
    ⟨(computePrompt env fs (pfOf argv)).1, ?_⟩⟩
  rw [afterTranscript_postArgs]
  unfold transcriptPathOf at hlo
  rw [hlo]
  rfl

/-- Claim C4 witness: a concrete run against a filesystem already holding
the transcript for title T does not call the transcript service. -/
theorem c4_witness :
    2 ≤ argvW.length ∧
    fsLookup fsCached (transcriptPathOf envAB argvW) = some (("cached").toList) ∧
    (mainRun envAB argvW fsCached).fetchCalled = false := by
  refine ⟨by decide, by decide, ?_⟩
  exact (c4_cache_hit_skips_fetch envAB argvW fsCached (("cached").toList)
    (by decide) (by decide)).1

/-- Claim C2 (amended): on a transcript cache miss, the saved transcript
file contains, in the original order, each snippet text trimmed of
leading and trailing whitespace and followed by one space; in particular a
single space also trails the last snippet, so the content is the
space-separated join plus one trailing space rather than the bare join. -/
theorem c2_saved_transcript_content (env : Env) (argv : List Str) (fs0 : FS)
    (sn : List Snippet) (hlen : 2 ≤ argv.length)
    (hmiss : fsLookup fs0 (transcriptPathOf env argv) = none)
    (hf : env.fetch (vidOf argv) = Except.ok sn) :
    fsLookup (mainRun env argv fs0).fs (transcriptPathOf env argv) =
      some ((sn.map (fun s => pyStrip s.text ++ [' '])).flatten) := by
  obtain ⟨pr, h⟩ := mainRun_miss env argv fs0 sn hlen hmiss hf
  rw [h]
  cases hs : summarize_with_ollama env
      (computePrompt env
        (fsInsert fs0 (transcriptPathOf env argv) (transcriptContent sn))
        (pfOf argv)).1
      ((fsLookup (fsInsert fs0 (transcriptPathOf env argv) (transcriptContent sn))
        (transcriptPath (titleOf env (vidOf argv)))).getD [])
      (modelOf argv) with
  | error e =>
      rw [afterTranscript_of_error _ _ _ _ _ _ _ _ _ hs]
      show fsLookup (fsInsert fs0 (transcriptPathOf env argv)
        (transcriptContent sn)) (transcriptPathOf env argv) = _
      rw [fsLookup_insert, if_pos rfl]
      rfl
  | ok s =>
      rw [afterTranscript_of_ok _ _ _ _ _ _ _ _ _ hs]
      show fsLookup (fsInsert
        (fsInsert fs0 (transcriptPathOf env argv) (transcriptContent sn))
        (summaryPath (titleOf env (vidOf argv)) (modelOf argv)) s)
        (transcriptPathOf env argv) = _
      rw [fsLookup_insert,
        if_neg (fun hh => transcriptPath_ne_summaryPath _ _ _ hh.symm),
        fsLookup_insert, if_pos rfl]
      rfl

/-- Claim C2 witness: with snippets a and b and an empty filesystem, the
saved transcript file contains the two trimmed snippets each followed by
one space. -/
theorem c2_witness :
    2 ≤ argvW.length ∧
    fsLookup ([] : FS) (transcriptPathOf envAB argvW) = none ∧
    fsLookup (mainRun envAB argvW []).fs (transcriptPathOf envAB argvW) =
      some (("a b ").toList) := by
  refine ⟨by decide, by decide, ?_⟩
  exact c2_saved_transcript_content envAB argvW []
    [{ text := ("a").toList }, { text := ("b").toList }]
    (by decide) (by decide) rfl

/-- Claim C2 counterexample: the claim as stated says the file content
equals the trimmed snippet texts joined with single spaces; the source
writes one space after every snippet including the last, so for snippets a
and b the file holds the five characters a, space, b, space and not the
three characters of the space-joined form. -/
theorem c2_cex :
    fsLookup (mainRun envAB argvW []).fs (transcriptPath (("T").toList)) =
      some (("a b ").toList) ∧
    specSpaceJoined [{ text := ("a").toList }, { text := ("b").toList }] =
      ("a b").toList ∧
    (("a b ").toList : Str) ≠
      specSpaceJoined [{ text := ("a").toList }, { text := ("b").toList }] := by
  refine ⟨by decide, by decide, by decide⟩

/-- Claim C7: the title resolver never lets an exception escape: when the
extraction call raises it prints a warning and returns the literal fallback
unknown title; when extraction succeeds but the title field is absent the
fallback string is sanitized, which leaves it unchanged; when a title is
present the resolver returns its sanitized form. -/
theorem c7_title_resolver_total (env : Env) (url : Str) :
    (env.extract_info url = none →
      get_video_title env url = (UNKNOWN_TITLE, [titleWarnMsg env.titleErr])) ∧
    (env.extract_info url = some none →
      (get_video_title env url).1 = UNKNOWN_TITLE) ∧
    (∀ t, env.extract_info url = some (some t) →
      (get_video_title env url).1 = sanitize_filename t) := by
  refine ⟨?_, ?_, ?_⟩
  · intro h
    unfold get_video_title
    rw [h]
  · intro h
    unfold get_video_title
    rw [h]
    show sanitize_filename UNKNOWN_TITLE = UNKNOWN_TITLE
    decide
  · intro t h
    unfold get_video_title
    rw [h]
    rfl

/-- Claim C7 witness: an environment whose metadata extraction raises
yields the fallback title and the warning line. -/
theorem c7_witness :
    envTitleFail.extract_info (("u").toList) = none ∧
    get_video_title envTitleFail (("u").toList) =
      (UNKNOWN_TITLE, [titleWarnMsg envTitleFail.titleErr]) := by
  exact ⟨rfl, (c7_title_resolver_total envTitleFail (("u").toList)).1 rfl⟩

/-- Claim C5: when the inference endpoint answers with any non-200 status
on a run that reaches it, the summarizer raises a runtime error whose
message carries the raw response body; the run aborts with the summaries
state untouched (the filesystem changes at most at the transcript path),
the error is printed with the fixed error prefix, and the process exits
with the normal exit code 0. -/
theorem c5_non200_aborts (env : Env) (argv : List Str) (fs0 : FS)
    (resp : HttpResponse) (hlen : 2 ≤ argv.length)
    (hpost : env.post = fun _ _ _ => resp)
    (hst : resp.status_code ≠ 200)
    (hpc : (mainRun env argv fs0).postCalled = true) :
    (mainRun env argv fs0).exitCode = 0 ∧
    fsLookup (mainRun env argv fs0).fs (summaryPathOf env argv) =
      fsLookup fs0 (summaryPathOf env argv) ∧
    (mainRun env argv fs0).err = some (OLLAMA_FAIL ++ resp.text) ∧
    List.IsSuffix resp.text (OLLAMA_FAIL ++ resp.text) ∧
    errLine (OLLAMA_FAIL ++ resp.text) ∈ (mainRun env argv fs0).printed ∧
    (∀ p, p ≠ transcriptPathOf env argv →
      fsLookup (mainRun env argv fs0).fs p = fsLookup fs0 p) := by
  obtain ⟨fs1, fc, pr, w, heq, htp, hfs⟩ := mainRun_post env argv fs0 hlen hpc
  have hs := summarize_non200 env (computePrompt env fs1 (pfOf argv)).1
    ((fsLookup fs1 (transcriptPath (titleOf env (vidOf argv)))).getD [])
    (modelOf argv) resp hpost hst
  rw [heq, afterTranscript_of_error _ _ _ _ _ _ _ _ _ hs]
  refine ⟨rfl, ?_, rfl, ⟨OLLAMA_FAIL, rfl⟩, ?_, ?_⟩
  · exact hfs _ (fun hh => transcriptPath_ne_summaryPath _ _ _ hh.symm)
  · simp
  · intro p hp
    exact hfs p hp

/-- Claim C5 witness: a concrete run against an endpoint that answers 500
with body boom exits with code 0 and leaves the summary path absent. -/
theorem c5_witness :
    2 ≤ argvW.length ∧
    envBoom.post = (fun _ _ _ => respBoom) ∧
    respBoom.status_code ≠ 200 ∧
    (mainRun envBoom argvW []).postCalled = true ∧
    (mainRun envBoom argvW []).exitCode = 0 ∧
    fsLookup (mainRun envBoom argvW []).fs (summaryPathOf envBoom argvW) =
      fsLookup ([] : FS) (summaryPathOf envBoom argvW) := by
  refine ⟨by decide, rfl, by decide, by decide, ?_, ?_⟩
  · exact (c5_non200_aborts envBoom argvW [] respBoom (by decide) rfl
      (by decide) (by decide)).1
  · exact (c5_non200_aborts envBoom argvW [] respBoom (by decide) rfl
      (by decide) (by decide)).2.1

/-- Claim C6: when the endpoint answers 200 with a JSON body whose response
field is the string r, the summary saved at the summary path for the
sanitized title and model is exactly the whitespace-trimmed value of r, and
the run completes without error. -/
theorem c6_success_saves_trimmed_response (env : Env) (argv : List Str)
    (fs0 : FS) (resp : HttpResponse) (rr : Str) (hlen : 2 ≤ argv.length)
    (hpost : env.post = fun _ _ _ => resp)
    (hst : resp.status_code = 200)
    (hb : resp.body = JsonBody.valid (some rr))
    (hpc : (mainRun env argv fs0).postCalled = true) :
    fsLookup (mainRun env argv fs0).fs (summaryPathOf env argv) =
      some (pyStrip rr) ∧
    (mainRun env argv fs0).err = none ∧
    (mainRun env argv fs0).exitCode = 0 := by
  obtain ⟨fs1, fc, pr, w, heq, htp, hfs⟩ := mainRun_post env argv fs0 hlen hpc
  have hs := summarize_200 env (computePrompt env fs1 (pfOf argv)).1
    ((fsLookup fs1 (transcriptPath (titleOf env (vidOf argv)))).getD [])
    (modelOf argv) resp (some rr) hpost hst hb
  rw [heq, afterTranscript_of_ok _ _ _ _ _ _ _ _ _ hs]
  refine ⟨?_, rfl, rfl⟩
  show fsLookup (fsInsert fs1
    (summaryPath (titleOf env (vidOf argv)) (modelOf argv))
    (pyStrip ((some rr).getD [])))
    (summaryPath (titleOf env (vidOf argv)) (modelOf argv)) = some (pyStrip rr)
  rw [fsLookup_insert, if_pos rfl]
  rfl

/-- Claim C6 witness: with the endpoint answering 200 and response field
hello, the saved summary file content is exactly hello. -/
theorem c6_witness :
    2 ≤ argvW.length ∧
    envHello.post = (fun _ _ _ => respHello) ∧
    respHello.status_code = 200 ∧
    respHello.body = JsonBody.valid (some (("hello").toList)) ∧
    (mainRun envHello argvW []).postCalled = true ∧
    fsLookup (mainRun envHello argvW []).fs (summaryPathOf envHello argvW) =
      some (("hello").toList) := by
  refine ⟨by decide, rfl, by decide, by decide, by decide, ?_⟩
  exact (c6_success_saves_trimmed_response envHello argvW [] respHello
    (("hello").toList) (by decide) rfl (by decide) (by decide) (by decide)).1

/-- Claim C9: when the endpoint answers 200 with a JSON body lacking the
response field, the summarizer returns the empty string instead of raising,
and the run completes without error, writing an empty summary file. -/
theorem c9_missing_response_field_empty (env : Env) (argv : List Str)
    (fs0 : FS) (resp : HttpResponse) (hlen : 2 ≤ argv.length)
    (hpost : env.post = fun _ _ _ => resp)
    (hst : resp.status_code = 200)
    (hb : resp.body = JsonBody.valid none)
    (hpc : (mainRun env argv fs0).postCalled = true) :
    (mainRun env argv fs0).err = none ∧
    fsLookup (mainRun env argv fs0).fs (summaryPathOf env argv) = some [] ∧
    (mainRun env argv fs0).exitCode = 0 ∧
    (∀ pp tt m, summarize_with_ollama env pp tt m = Except.ok []) := by
  obtain ⟨fs1, fc, pr, w, heq, htp, hfs⟩ := mainRun_post env argv fs0 hlen hpc
  have hs := summarize_200 env (computePrompt env fs1 (pfOf argv)).1
    ((fsLookup fs1 (transcriptPath (titleOf env (vidOf argv)))).getD [])
    (modelOf argv) resp none hpost hst hb
  rw [heq, afterTranscript_of_ok _ _ _ _ _ _ _ _ _ hs]
  refine ⟨rfl, ?_, rfl, ?_⟩
  · show fsLookup (fsInsert fs1
      (summaryPath (titleOf env (vidOf argv)) (modelOf argv))
      (pyStrip ((none : Option Str).getD [])))
      (summaryPath (titleOf env (vidOf argv)) (modelOf argv)) = some []
    rw [fsLookup_insert, if_pos rfl]
    rfl
  · intro pp tt m
    exact summarize_200 env pp tt m resp none hpost hst hb

/-- Claim C9 witness: a concrete 200 response without a response field
yields an error-free run whose summary file is empty. -/
theorem c9_witness :
    2 ≤ argvW.length ∧
    envNoField.post = (fun _ _ _ => respNoField) ∧
    respNoField.status_code = 200 ∧
    respNoField.body = JsonBody.valid none ∧
    (mainRun envNoField argvW []).postCalled = true ∧
    (mainRun envNoField argvW []).err = none ∧
    fsLookup (mainRun envNoField argvW []).fs (summaryPathOf envNoField argvW) =
      some [] := by
  refine ⟨by decide, rfl, by decide, by decide, by decide, ?_, ?_⟩
  · exact (c9_missing_response_field_empty envNoField argvW [] respNoField
      (by decide) rfl (by decide) (by decide) (by decide)).1
  · exact (c9_missing_response_field_empty envNoField argvW [] respNoField
      (by decide) rfl (by decide) (by decide) (by decide)).2.1

/-- Claim C8: on a run that reaches the inference endpoint, the prompt part
of the request is the trimmed content of the prompt file when a non-empty
path was given and the file is readable, and the fixed default prompt
verbatim in every other case: no path given, an empty path, or an
unreadable file.  The prompt-file lookup happens after the transcript was
saved, so readability is stated against the final filesystem, away from the
summary path the run itself may have just written. -/
theorem c8_prompt_selection (env : Env) (argv : List Str) (fs0 : FS)
    (hlen : 2 ≤ argv.length)
    (hpc : (mainRun env argv fs0).postCalled = true) :
    ((pfOf argv = none ∨ pfOf argv = some []) →
      ∃ tt, (mainRun env argv fs0).postArgs =
        some (OLLAMA_URL, modelOf argv, DEFAULT_PROMPT ++ NL2 ++ tt)) ∧
    (∀ p c, pfOf argv = some p → p ≠ [] → p ≠ summaryPathOf env argv →
      fsLookup (mainRun env argv fs0).fs p = some c →
      ∃ tt, (mainRun env argv fs0).postArgs =
        some (OLLAMA_URL, modelOf argv, pyStrip c ++ NL2 ++ tt)) ∧
    (∀ p, pfOf argv = some p → p ≠ [] →
      fsLookup (mainRun env argv fs0).fs p = none →
      ∃ tt, (mainRun env argv fs0).postArgs =
        some (OLLAMA_URL, modelOf argv, DEFAULT_PROMPT ++ NL2 ++ tt)) := by
  obtain ⟨fs1, fc, pr, w, heq, htp, hfs⟩ := mainRun_post env argv fs0 hlen hpc
  refine ⟨?_, ?_, ?_⟩
  · intro hpf
    refine ⟨(fsLookup fs1 (transcriptPath (titleOf env (vidOf argv)))).getD [], ?_⟩
    rw [heq, afterTranscript_postArgs]
    rcases hpf with h | h <;> rw [h] <;> rfl
  · intro p c hpf hpne hpsp hp
    have hfs1p : fsLookup fs1 p = some c := by
      rw [heq] at hp
      cases hs : summarize_with_ollama env (computePrompt env fs1 (pfOf argv)).1
          ((fsLookup fs1 (transcriptPath (titleOf env (vidOf argv)))).getD [])
          (modelOf argv) with
      | error e =>
          rw [afterTranscript_of_error _ _ _ _ _ _ _ _ _ hs] at hp
          exact hp
      | ok s =>
          rw [afterTranscript_of_ok _ _ _ _ _ _ _ _ _ hs] at hp
          have hp1 : fsLookup (fsInsert fs1
              (summaryPath (titleOf env (vidOf argv)) (modelOf argv)) s) p =
              some c := hp
          rw [fsLookup_insert, if_neg (fun hh => hpsp hh.symm)] at hp1
          exact hp1
    have hcp : computePrompt env fs1 (pfOf argv) = (pyStrip c, []) := by
      rw [hpf]
      simp only [computePrompt, if_neg hpne]
      unfold load_prompt
      rw [hfs1p]
    refine ⟨(fsLookup fs1 (transcriptPath (titleOf env (vidOf argv)))).getD [], ?_⟩
    rw [heq, afterTranscript_postArgs, hcp]
  · intro p hpf hpne hp
    have hfs1p : fsLookup fs1 p = none := by
      rw [heq] at hp
      cases hs : summarize_with_ollama env (computePrompt env fs1 (pfOf argv)).1
          ((fsLookup fs1 (transcriptPath (titleOf env (vidOf argv)))).getD [])
          (modelOf argv) with
      | error e =>
          rw [afterTranscript_of_error _ _ _ _ _ _ _ _ _ hs] at hp
          exact hp
      | ok s =>
          rw [afterTranscript_of_ok _ _ _ _ _ _ _ _ _ hs] at hp
          have hp1 : fsLookup (fsInsert fs1
              (summaryPath (titleOf env (vidOf argv)) (modelOf argv)) s) p =
              none := hp
          rw [fsLookup_insert] at hp1
          by_cases hh : summaryPath (titleOf env (vidOf argv)) (modelOf argv) = p
          · rw [if_pos hh] at hp1
            exact absurd hp1 (by simp)
          · rw [if_neg hh] at hp1
            exact hp1
    have hcp : computePrompt env fs1 (pfOf argv) =
        (DEFAULT_PROMPT, [promptWarnMsg env.promptErr, promptDefaultMsg]) := by
      rw [hpf]
      simp only [computePrompt, if_neg hpne]
      unfold load_prompt
      rw [hfs1p]
    refine ⟨(fsLookup fs1 (transcriptPath (titleOf env (vidOf argv)))).getD [], ?_⟩
    rw [heq, afterTranscript_postArgs, hcp]

set_option maxRecDepth 16384 in
/-- Claim C8 witness: a run with no prompt-file argument sends the default
prompt followed by the blank line and the transcript read back from the
just-saved file. -/
theorem c8_witness :
    2 ≤ argvW.length ∧
    (mainRun envAB argvW []).postCalled = true ∧
    pfOf argvW = none ∧
    (mainRun envAB argvW []).postArgs =
      some (OLLAMA_URL, DEFAULT_OLLAMA_MODEL,
        DEFAULT_PROMPT ++ NL2 ++ ("a b ").toList) := by
  obtain ⟨tt, htt⟩ :=
    (c8_prompt_selection envAB argvW [] (by decide) (by decide)).1 (Or.inl rfl)
  refine ⟨by decide, by decide, rfl, by decide⟩
/-- Claim C1 counterexample: the claim as stated says that once a summary
file exists for a title and model, a later run with the same inputs reuses
it unconditionally and never overwrites it.  In the concrete run below the
first execution leaves a summary file in place, yet the second execution
still invokes the inference endpoint and opens the same summary path for
writing again: the summary file is never consulted as a cache. -/
theorem c1_cex :
    fsLookup (mainRun envAB argvW []).fs
      (summaryPath (("T").toList) DEFAULT_OLLAMA_MODEL) ≠ none ∧
    (mainRun envAB argvW (mainRun envAB argvW []).fs).postCalled = true ∧
    summaryPath (("T").toList) DEFAULT_OLLAMA_MODEL ∈
      (mainRun envAB argvW (mainRun envAB argvW []).fs).written := by
  refine ⟨by decide, by decide, by decide⟩

/-- Claim C1 (amended): re-running with identical video identifier, prompt
file and model reuses the cached transcript file unconditionally (the
transcript service is not invoked again), but the summary is not cached:
the second run invokes the inference endpoint again and rewrites the
summary file.  With unchanged collaborators, and a prompt-file argument
that is not the summary path itself, the rewritten summary is byte for
byte the one already on disk, so the second run leaves every file of the
filesystem with the content the first run gave it. -/
theorem c1_second_run (env : Env) (argv : List Str) (fs0 : FS)
    (hlen : 2 ≤ argv.length)
    (herr : (mainRun env argv fs0).err = none)
    (hpf : pfOf argv ≠ some (summaryPathOf env argv)) :
    (mainRun env argv (mainRun env argv fs0).fs).fetchCalled = false ∧
    (mainRun env argv (mainRun env argv fs0).fs).postCalled = true ∧
    (mainRun env argv (mainRun env argv fs0).fs).err = none ∧
    ∀ p, fsLookup (mainRun env argv (mainRun env argv fs0).fs).fs p =
      fsLookup (mainRun env argv fs0).fs p := by
  have hpf2 : pfOf argv ≠
      some (summaryPath (titleOf env (vidOf argv)) (modelOf argv)) := hpf
  cases hlo : fsLookup fs0 (transcriptPathOf env argv) with
  | some c =>
      obtain ⟨pr1, h1⟩ := mainRun_hit env argv fs0 c hlen hlo
      cases hs : summarize_with_ollama env (computePrompt env fs0 (pfOf argv)).1
          ((fsLookup fs0 (transcriptPath (titleOf env (vidOf argv)))).getD [])
          (modelOf argv) with
      | error e =>
          rw [h1, afterTranscript_of_error _ _ _ _ _ _ _ _ _ hs] at herr
          exact absurd herr (by simp)
      | ok s =>
          have hr1 : (mainRun env argv fs0).fs =
              fsInsert fs0 (summaryPath (titleOf env (vidOf argv)) (modelOf argv)) s := by
            rw [h1, afterTranscript_of_ok _ _ _ _ _ _ _ _ _ hs]
          rw [hr1]
          have hlo2 : fsLookup
              (fsInsert fs0 (summaryPath (titleOf env (vidOf argv)) (modelOf argv)) s)
              (transcriptPathOf env argv) = some c := by
            rw [fsLookup_insert,
              if_neg (fun hh => transcriptPath_ne_summaryPath _ _ _ hh.symm)]
            exact hlo
          obtain ⟨pr2, h2⟩ := mainRun_hit env argv
            (fsInsert fs0 (summaryPath (titleOf env (vidOf argv)) (modelOf argv)) s)
            c hlen hlo2
          have hs2 : summarize_with_ollama env
              (computePrompt env
                (fsInsert fs0 (summaryPath (titleOf env (vidOf argv)) (modelOf argv)) s)
                (pfOf argv)).1
              ((fsLookup
                (fsInsert fs0 (summaryPath (titleOf env (vidOf argv)) (modelOf argv)) s)
                (transcriptPath (titleOf env (vidOf argv)))).getD [])
              (modelOf argv) = Except.ok s := by
            rw [computePrompt_fsInsert_ne env fs0 _ s (pfOf argv) hpf2,
              fsLookup_insert,
              if_neg (fun hh => transcriptPath_ne_summaryPath _ _ _ hh.symm)]
            exact hs
          rw [h2, afterTranscript_of_ok _ _ _ _ _ _ _ _ _ hs2]
          exact ⟨rfl, rfl, rfl, fun p => fsLookup_insert_insert_same fs0 _ s p⟩
  | none =>
      cases hf : env.fetch (vidOf argv) with
      | error e =>
          obtain ⟨he, _, _⟩ := mainRun_fetchErr env argv fs0 e hlen hlo hf
          rw [he] at herr
          exact absurd herr (by simp)
      | ok sn =>
          obtain ⟨pr1, h1⟩ := mainRun_miss env argv fs0 sn hlen hlo hf
          cases hs : summarize_with_ollama env
              (computePrompt env
                (fsInsert fs0 (transcriptPathOf env argv) (transcriptContent sn))
                (pfOf argv)).1
              ((fsLookup
                (fsInsert fs0 (transcriptPathOf env argv) (transcriptContent sn))
                (transcriptPath (titleOf env (vidOf argv)))).getD [])
              (modelOf argv) with
          | error e =>
              rw [h1, afterTranscript_of_error _ _ _ _ _ _ _ _ _ hs] at herr
              exact absurd herr (by simp)
          | ok s =>
              have hr1 : (mainRun env argv fs0).fs =
                  fsInsert
                    (fsInsert fs0 (transcriptPathOf env argv) (transcriptContent sn))
                    (summaryPath (titleOf env (vidOf argv)) (modelOf argv)) s := by
                rw [h1, afterTranscript_of_ok _ _ _ _ _ _ _ _ _ hs]
              rw [hr1]
              have hlo2 : fsLookup
                  (fsInsert
                    (fsInsert fs0 (transcriptPathOf env argv) (transcriptContent sn))
                    (summaryPath (titleOf env (vidOf argv)) (modelOf argv)) s)
                  (transcriptPathOf env argv) = some (transcriptContent sn) := by
                rw [fsLookup_insert,
                  if_neg (fun hh => transcriptPath_ne_summaryPath _ _ _ hh.symm),
                  fsLookup_insert, if_pos rfl]
              obtain ⟨pr2, h2⟩ := mainRun_hit env argv
                (fsInsert
                  (fsInsert fs0 (transcriptPathOf env argv) (transcriptContent sn))
                  (summaryPath (titleOf env (vidOf argv)) (modelOf argv)) s)
                (transcriptContent sn) hlen hlo2
              have hs2 : summarize_with_ollama env
                  (computePrompt env
                    (fsInsert
                      (fsInsert fs0 (transcriptPathOf env argv) (transcriptContent sn))
                      (summaryPath (titleOf env (vidOf argv)) (modelOf argv)) s)
                    (pfOf argv)).1
                  ((fsLookup
                    (fsInsert
                      (fsInsert fs0 (transcriptPathOf env argv) (transcriptContent sn))
                      (summaryPath (titleOf env (vidOf argv)) (modelOf argv)) s)
                    (transcriptPath (titleOf env (vidOf argv)))).getD [])
                  (modelOf argv) = Except.ok s := by
                rw [computePrompt_fsInsert_ne env _ _ s (pfOf argv) hpf2,
                  fsLookup_insert,
                  if_neg (fun hh => transcriptPath_ne_summaryPath _ _ _ hh.symm)]
                rw [fsLookup_insert,
                  if_pos (show transcriptPathOf env argv =
                    transcriptPath (titleOf env (vidOf argv)) from rfl)] at hs ⊢
                exact hs
              rw [h2, afterTranscript_of_ok _ _ _ _ _ _ _ _ _ hs2]
              exact ⟨rfl, rfl, rfl, fun p => fsLookup_insert_insert_same _ _ s p⟩

/-- Claim C1 witness: a concrete healthy first run, after which the second
run skips the transcript fetch and leaves every file unchanged. -/
theorem c1_witness :
    2 ≤ argvW.length ∧
    (mainRun envAB argvW []).err = none ∧
    pfOf argvW ≠ some (summaryPathOf envAB argvW) ∧
    (mainRun envAB argvW (mainRun envAB argvW []).fs).fetchCalled = false ∧
    (mainRun envAB argvW (mainRun envAB argvW []).fs).postCalled = true := by
  refine ⟨by decide, by decide, by decide, ?_, ?_⟩
  · exact (c1_second_run envAB argvW [] (by decide) (by decide) (by decide)).1
  · exact (c1_second_run envAB argvW [] (by decide) (by decide) (by decide)).2.1

end YTS
